import Mathlib

set_option maxRecDepth 4000

/-!
Verification development for the whisper-gui transcription application
(src/main.py).  The program's pure logic is shallowly embedded below:
Python strings are modelled as lists of characters (`Str`), the wx panels
managed by `PanelsSwitcher` as natural-number identities whose visibility
is a function `Nat → Bool`, and the UI side effects of the home panel
(label updates, file writes) as explicit lists of `UIAction`s.  Fallible
operations return `Except`; the opaque network call of
`openai.Audio.transcribe` is a parameter of type `Except Str Str`
(error description or transcript text).
-/

/-- Python strings are modelled as lists of characters (one element per
code point, so `List.length` coincides with Python's `len`). -/
abbrev Str := List Char

/-- Accumulator-based model of Python's `str.split()` (split on whitespace
runs, discarding empty pieces): `cur` is the word currently being read.
`Char.isWhitespace` covers the ASCII whitespace characters that matter
here (space, tab, CR, LF). -/
def pySplitAux : Str → Str → List Str
  | [], cur => if cur = [] then [] else [cur]
  | c :: cs, cur =>
    if c.isWhitespace then (if cur = [] then [] else [cur]) ++ pySplitAux cs []
    else pySplitAux cs (cur ++ [c])

/-- Model of `string.split()` from main.py line 10. -/
def pySplit (s : Str) : List Str := pySplitAux s []

/-- One iteration of the `for word in words` loop of `add_newlines`
(main.py lines 14-19): the accumulator is the pair
`(lines, current_line)`. -/
def wrapStep (line_length : Nat) (acc : List Str × Str) (word : Str) : List Str × Str :=
  if acc.2.length + word.length ≤ line_length then
    (acc.1, if acc.2 = [] then word else acc.2 ++ ' ' :: word)
  else (acc.1 ++ [acc.2], word)

/-- Model of Python's `sep.join(pieces)` for a one-character separator. -/
def joinWith (sep : Char) : List Str → Str
  | [] => []
  | [l] => l
  | l :: ls => l ++ sep :: joinWith sep ls

/-- Model of `add_newlines` (main.py lines 9-24): greedy word wrap.
The trailing `if current_line: lines.append(current_line)` is the
`if acc.2 = []` case below, and the result joins the lines with
newline characters. -/
def add_newlines (s : Str) (line_length : Nat) : Str :=
  let words := pySplit s
  let acc := words.foldl (wrapStep line_length) ([], [])
  let lines := if acc.2 = [] then acc.1 else acc.1 ++ [acc.2]
  joinWith '\n' lines

/-- Model of Python's `str.split(sep)` for a one-character separator
(used to talk about the lines of the wrapped output): empty pieces are
kept, and splitting the empty string gives one empty piece. -/
def splitOnChar (sep : Char) : Str → List Str
  | [] => [[]]
  | c :: cs =>
    if c = sep then [] :: splitOnChar sep cs
    else
      match splitOnChar sep cs with
      | [] => [[c]]
      | l :: ls => (c :: l) :: ls

/-- Spec-side helper: a line of the wrapped output, as built by the loop of
`add_newlines`, is a block of words joined by single spaces. -/
def sj (B : List Str) : Str := joinWith ' ' B

/-- Spec-side helper: a string that is empty or starts with a whitespace
character (shape of the tail while peeling words off the wrapped output). -/
def wsLead : Str → Bool
  | [] => true
  | d :: _ => d.isWhitespace

namespace PanelsSwitcher

/-- Visibility update of a single panel: models `p.Show()` / `p.Hide()`
on the wx window identified by `p`.  The switcher's panels are modelled by
their identities (`Nat`), and the whole UI state relevant to the switcher
is the visibility assignment `Nat → Bool`. -/
def setVis (vis : Nat → Bool) (p : Nat) (b : Bool) : Nat → Bool :=
  fun q => if q = p then b else vis q

/-- Model of `PanelsSwitcher.Show` (main.py lines 79-96): for each `p` in
`self.panels`, show it when `p == panel` and hide it otherwise.  The final
`self.parent.Layout()` is a pure re-layout and carries no visibility
state, so it is not modelled. -/
def Show (panels : List Nat) (target : Nat) (vis : Nat → Bool) : Nat → Bool :=
  panels.foldl (fun v p => setVis v p (decide (p = target))) vis

/-- The failure raised by `PanelsSwitcher.__init__` on an empty panel
list: `panels[0]` raises `IndexError`, the construction-time failure the
spec names `ConfigurationError`. -/
inductive ConfigurationError
  | emptyViews
deriving DecidableEq

/-- Model of `PanelsSwitcher.__init__` (main.py lines 41-67): it records
the panels and calls `self.Show(panels[0])`, which shows the first panel
and hides the rest.  On an empty list, `panels[0]` fails. -/
def init (panels : List Nat) (vis : Nat → Bool) : Except ConfigurationError (Nat → Bool) :=
  match panels with
  | [] => Except.error ConfigurationError.emptyViews
  | p :: ps => Except.ok (Show (p :: ps) p vis)

/-- Model of `PanelsSwitcher.add_panel` (main.py lines 69-77): appends a
panel without touching any visibility. -/
def add_panel (panels : List Nat) (p : Nat) : List Nat := panels ++ [p]

end PanelsSwitcher

/-- Python truthiness of an optional string (`if self.selected_file:`,
`if os.getenv('OPENAI_API_KEY'):`): `None` and the empty string are
falsy, any non-empty string is truthy. -/
def pyTruthyStr : Option Str → Bool
  | none => false
  | some s => !s.isEmpty

namespace HomePanel

/-- Synchronous outcome of `HomePanel.transcribe` (main.py lines 193-201):
either one of the two `notify_error` messages, or the start of the
background thread.  `noFileSelected` is the red label
"No audio file selected.", `noCredential` is "No API key provided.",
and `jobStarted` is `threading.Thread(target=self.send_audio).start()`. -/
inductive TranscribeOutcome
  | noFileSelected
  | noCredential
  | jobStarted
deriving DecidableEq

/-- Model of `HomePanel.transcribe` (main.py lines 193-201).  The state it
reads is `self.selected_file` (`None` until a file dialog succeeds) and
`os.getenv('OPENAI_API_KEY')` (`None` when the variable is unset). -/
def transcribe (selected_file : Option Str) (env_api_key : Option Str) : TranscribeOutcome :=
  if pyTruthyStr selected_file then
    if pyTruthyStr env_api_key then TranscribeOutcome.jobStarted
    else TranscribeOutcome.noCredential
  else TranscribeOutcome.noFileSelected

/-- Number of background `TranscriptionJob` threads started by one call of
`transcribe`: exactly one `threading.Thread(...).start()` on the
`jobStarted` path, none otherwise. -/
def jobsStarted : TranscribeOutcome → Nat
  | TranscribeOutcome.jobStarted => 1
  | _ => 0

end HomePanel

namespace SettingsPanel

/-- Model of `SettingsPanel.save_api_key` (main.py lines 233-236): the
entered text is written unconditionally into `os.environ['OPENAI_API_KEY']`
and `openai.api_key`; the pair returned is the state of those two stores
after the save.  No validation is performed, so the empty string is
storable. -/
def save_api_key (entry : Str) : Option Str × Option Str :=
  (some entry, some entry)

end SettingsPanel

/-- Wall-clock instant as used by `datetime.datetime.now()` followed by
`strftime("%Y_%m_%d_%H_%M_%S")` (main.py lines 171-172). -/
structure DateTime where
  year : Nat
  month : Nat
  day : Nat
  hour : Nat
  minute : Nat
  second : Nat
deriving DecidableEq

/-- Decimal rendering of a natural number, as a character list. -/
def natToStr (n : Nat) : Str := (toString n).toList

/-- Zero-padding to two digits, as `strftime` does for `%m`, `%d`, `%H`,
`%M`, `%S`. -/
def pad2 (n : Nat) : Str := if n < 10 then '0' :: natToStr n else natToStr n

/-- Model of `strftime("%Y_%m_%d_%H_%M_%S")`: the year in decimal
(four digits for any realistic year) and the remaining fields zero-padded
to two digits, joined by underscores. -/
def strftime_Y_m_d_H_M_S (dt : DateTime) : Str :=
  natToStr dt.year ++ '_' :: (pad2 dt.month ++ '_' :: (pad2 dt.day ++ '_' ::
    (pad2 dt.hour ++ '_' :: (pad2 dt.minute ++ '_' :: pad2 dt.second))))

/-- Model of `os.path.basename` on POSIX (`posixpath.basename`): the
suffix after the last path separator.  It is pure string slicing
(`p[p.rfind('/') + 1:]`); the Windows variant differs only in which
separators it strips and is equally pure. -/
def os_path_basename (p : Str) : Str :=
  (p.reverse.takeWhile (fun c => !(c == '/'))).reverse

/-- The `try` wrapper of `is_valid_filename` (main.py lines 27-33) around
`os.path.basename`: basename is total string manipulation and raises no
`OSError`, so the call always returns normally. -/
def os_path_basename_try (p : Str) : Except Unit Str :=
  Except.ok (os_path_basename p)

/-- Model of `is_valid_filename` (main.py lines 26-34): `True` when the
guarded `os.path.basename` call returns normally, `False` on `OSError`. -/
def is_valid_filename (filename : Str) : Bool :=
  match os_path_basename_try filename with
  | Except.ok _ => true
  | Except.error _ => false

/-- Filename stem chosen by `HomePanel.save_transcript` (main.py lines
168-173): the entered title when `is_valid_filename(title) and
title != ''`, otherwise `'transcript_' + now.strftime(...)`. -/
def transcript_stem (title : Str) (now : DateTime) : Str :=
  if is_valid_filename title = true ∧ title ≠ [] then title
  else ("transcript_").toList ++ strftime_Y_m_d_H_M_S now

/-- One observable UI side effect of the home panel's handlers: a label
colour change (`SetForegroundColour`), a label text change (`SetLabel`),
or a file write (`open(..., 'w')` followed by `write`). -/
inductive UIAction
  | setForegroundColour (rgb : Nat × Nat × Nat)
  | setLabel (text : Str)
  | writeFile (path : Str) (content : Str)
deriving DecidableEq

namespace HomePanel

/-- Model of `HomePanel.notify_error` (main.py lines 149-152): paint the
feedback label red (RGB 255,0,0) and set its text. -/
def notify_error (msg : Str) : List UIAction :=
  [UIAction.setForegroundColour (255, 0, 0), UIAction.setLabel msg]

/-- The green confirmation text of `save_transcript` (main.py line 179):
`f"Saved transcript to '{os.getcwd()}\\{title}.txt'"`. -/
def saved_message (cwd stem : Str) : Str :=
  ("Saved transcript to ").toList ++ '\'' :: (cwd ++ '\\' :: (stem ++ (".txt").toList ++ ['\'']))

/-- Model of `HomePanel.save_transcript` (main.py lines 167-180): write
`<stem>.txt`, then paint the feedback label green (RGB 30,117,22) and set
it to the saved-path confirmation. -/
def save_transcript (title : Str) (now : DateTime) (cwd : Str) (text : Str) : List UIAction :=
  [UIAction.writeFile (transcript_stem title now ++ (".txt").toList) text,
   UIAction.setForegroundColour (30, 117, 22),
   UIAction.setLabel (saved_message cwd (transcript_stem title now))]

/-- Model of `HomePanel.send_audio` (main.py lines 183-191).  The opaque
network call `openai.Audio.transcribe` is the parameter `result`: an
`OpenAIError` with description `e` on the left, the transcript text on the
right.  On error the handler shows `'OPENAI error: ' +
add_newlines(str(e), 50)` and then saves the placeholder `'test'`; on
success it saves the transcript. -/
def send_audio (result : Except Str Str) (title : Str) (now : DateTime) (cwd : Str) :
    List UIAction :=
  match result with
  | Except.error e =>
      notify_error (("OPENAI error: ").toList ++ add_newlines e 50) ++
        save_transcript title now cwd (("test").toList)
  | Except.ok text => save_transcript title now cwd text

end HomePanel

/-- State of the feedback label `self.error_label`: its foreground colour
and its text. -/
structure LabelState where
  colour : Nat × Nat × Nat
  text : Str
deriving DecidableEq

/-- Effect of one UI action on the feedback label (file writes do not
touch it). -/
def applyAction (l : LabelState) (a : UIAction) : LabelState :=
  match a with
  | UIAction.setForegroundColour c => LabelState.mk c l.text
  | UIAction.setLabel t => LabelState.mk l.colour t
  | UIAction.writeFile _ _ => l

/-- The label state after a handler has run all its actions in order. -/
def finalLabel (init : LabelState) (as : List UIAction) : LabelState :=
  as.foldl applyAction init

/-- The files written by a list of actions, in order. -/
def filesWritten (as : List UIAction) : List (Str × Str) :=
  as.filterMap fun a =>
    match a with
    | UIAction.writeFile p c => some (p, c)
    | _ => none

/-- The actions executed by the worker thread spawned by
`HomePanel.transcribe`: the thread target is `self.send_audio` itself
(main.py line 197), so the worker performs exactly the actions of
`send_audio` — there is no `wx.CallAfter` / event hand-off anywhere in
the program. -/
def worker_thread_actions (result : Except Str Str) (title : Str) (now : DateTime)
    (cwd : Str) : List UIAction :=
  HomePanel.send_audio result title now cwd

/-- Whether an action directly mutates wx view state (label colour or
text); file writes are I/O but not view mutations. -/
def mutatesUI : UIAction → Bool
  | UIAction.setForegroundColour _ => true
  | UIAction.setLabel _ => true
  | UIAction.writeFile _ _ => false

/-! Helper lemmas about the panel switcher. -/

/-- Pointwise evaluation of `PanelsSwitcher.Show`: a managed panel is
visible exactly when it is the target; an unmanaged panel keeps its prior
visibility. -/
theorem PanelsSwitcher.Show_eval (panels : List Nat) (target : Nat) (vis : Nat → Bool)
    (q : Nat) :
    PanelsSwitcher.Show panels target vis q =
      if q ∈ panels then decide (q = target) else vis q := by
  induction panels generalizing vis with
  | nil => simp [PanelsSwitcher.Show]
  | cons p ps ih =>
    have hstep :
        PanelsSwitcher.Show (p :: ps) target vis q =
          PanelsSwitcher.Show ps target (PanelsSwitcher.setVis vis p (decide (p = target))) q := by
      simp [PanelsSwitcher.Show, List.foldl_cons]
    rw [hstep, ih]
    by_cases hq : q ∈ ps
    · simp [hq, List.mem_cons, Or.inr hq]
    · by_cases hqp : q = p
      · subst hqp
        simp [hq, PanelsSwitcher.setVis]
      · simp [hq, hqp, PanelsSwitcher.setVis]

/-- C1: for every non-empty view list, initialization makes the first view
visible and hides all other managed views, and `Show(v)` for a managed `v`
makes `v` visible and hides every other managed view, from any prior
state; repeating `Show(v)` with the same argument changes nothing. -/
theorem c1_exactly_one_visible (first : Nat) (rest : List Nat) (vis vis0 : Nat → Bool)
    (v : Nat) (hv : v ∈ first :: rest) :
    (PanelsSwitcher.init (first :: rest) vis0 =
        Except.ok (PanelsSwitcher.Show (first :: rest) first vis0) ∧
      PanelsSwitcher.Show (first :: rest) first vis0 first = true ∧
      (∀ q ∈ first :: rest, q ≠ first →
        PanelsSwitcher.Show (first :: rest) first vis0 q = false)) ∧
    (PanelsSwitcher.Show (first :: rest) v vis v = true ∧
      (∀ q ∈ first :: rest, q ≠ v → PanelsSwitcher.Show (first :: rest) v vis q = false) ∧
      (∀ q, PanelsSwitcher.Show (first :: rest) v (PanelsSwitcher.Show (first :: rest) v vis) q =
        PanelsSwitcher.Show (first :: rest) v vis q)) := by
  refine ⟨⟨rfl, ?_, ?_⟩, ?_, ?_, ?_⟩
  · rw [PanelsSwitcher.Show_eval]
    simp
  · intro q hq hne
    rw [PanelsSwitcher.Show_eval]
    simp [hq, hne]
  · rw [PanelsSwitcher.Show_eval]
    simp [hv]
  · intro q hq hne
    rw [PanelsSwitcher.Show_eval]
    simp [hq, hne]
  · intro q
    rw [PanelsSwitcher.Show_eval, PanelsSwitcher.Show_eval]
    by_cases hq : q ∈ first :: rest <;> simp [hq]

/-- C1 witness: a concrete instance of the exactly-one-visible theorem,
with the membership hypothesis discharged at panels `[0, 1]`, `v = 1`. -/
theorem c1_witness :
    PanelsSwitcher.Show [0, 1] 1 (fun _ => false) 1 = true :=
  ((c1_exactly_one_visible 0 [1] (fun _ => false) (fun _ => false) 1 (by decide)).2).1

/-- C2 counterexample: with managed panels `[0, 1]` and panel `0` visible
(the state right after initialization), `Show(2)` for the non-member `2`
is not a no-op — it hides panel `0`. -/
theorem c2_counterexample :
    ¬ (PanelsSwitcher.Show [0, 1] 2 (PanelsSwitcher.Show [0, 1] 0 (fun _ => false)) 0 =
        PanelsSwitcher.Show [0, 1] 0 (fun _ => false) 0) := by
  decide

/-- C2 amended: `Show(v)` for a view `v` outside the managed sequence is
not a no-op; it hides every managed view (no managed view stays visible),
while views outside the managed sequence keep their visibility. -/
theorem c2_show_nonmember (panels : List Nat) (v : Nat) (vis : Nat → Bool)
    (hv : v ∉ panels) :
    (∀ q ∈ panels, PanelsSwitcher.Show panels v vis q = false) ∧
      (∀ q, q ∉ panels → PanelsSwitcher.Show panels v vis q = vis q) := by
  constructor
  · intro q hq
    rw [PanelsSwitcher.Show_eval]
    have : q ≠ v := fun h => hv (h ▸ hq)
    simp [hq, this]
  · intro q hq
    rw [PanelsSwitcher.Show_eval]
    simp [hq]

/-- C2 witness: the amended non-member statement applied at panels
`[0, 1]` and non-member `2`. -/
theorem c2_witness :
    PanelsSwitcher.Show [0, 1] 2 (fun _ => true) 0 = false :=
  (c2_show_nonmember [0, 1] 2 (fun _ => true) (by decide)).1 0 (by decide)

/-- C8: the switcher's construction fails with `ConfigurationError`
exactly on the empty view list, and on any non-empty list it succeeds,
returning the state that shows the first view; `Show` and `add_panel` are
total, so this is the only failure mode. -/
theorem c8_config_error (panels : List Nat) (p : Nat) (ps : List Nat) (vis : Nat → Bool) :
    (PanelsSwitcher.init panels vis =
        Except.error PanelsSwitcher.ConfigurationError.emptyViews ↔ panels = []) ∧
      PanelsSwitcher.init (p :: ps) vis =
        Except.ok (PanelsSwitcher.Show (p :: ps) p vis) := by
  refine ⟨⟨?_, ?_⟩, rfl⟩
  · intro h
    cases panels with
    | nil => rfl
    | cons q qs => simp [PanelsSwitcher.init] at h
  · intro h
    subst h
    rfl

/-- C4: `transcribe` is guarded synchronously.  With no file selected it
starts no thread and reports the no-file error for every credential
state; with a (non-empty) selected path and the credential variable unset
it starts no thread and reports the no-credential error; and a job is
started — exactly one — only when a file is selected and the credential
variable is set. -/
theorem c4_transcribe_guards (f : Str) (hf : f ≠ []) :
    (∀ key, HomePanel.transcribe none key = HomePanel.TranscribeOutcome.noFileSelected ∧
        HomePanel.jobsStarted (HomePanel.transcribe none key) = 0) ∧
    (HomePanel.transcribe (some f) none = HomePanel.TranscribeOutcome.noCredential ∧
      HomePanel.jobsStarted (HomePanel.transcribe (some f) none) = 0) ∧
    (∀ sel key, HomePanel.transcribe sel key = HomePanel.TranscribeOutcome.jobStarted →
      (∃ g, sel = some g ∧ g ≠ []) ∧ (∃ s, key = some s) ∧
        HomePanel.jobsStarted (HomePanel.transcribe sel key) = 1) := by
  refine ⟨fun key => ⟨rfl, rfl⟩, ?_, ?_⟩
  · have hTruthy : pyTruthyStr (some f) = true := by
      cases f with
      | nil => exact absurd rfl hf
      | cons c cs => simp [pyTruthyStr]
    constructor <;> simp [HomePanel.transcribe, hf, pyTruthyStr, HomePanel.jobsStarted]
  · intro sel key hrun
    match sel with
    | none => simp [HomePanel.transcribe, pyTruthyStr] at hrun
    | some g =>
      match g with
      | [] => simp [HomePanel.transcribe, pyTruthyStr] at hrun
      | c :: cs =>
        match key with
        | none => simp [HomePanel.transcribe, pyTruthyStr] at hrun
        | some s =>
          refine ⟨⟨c :: cs, rfl, by simp⟩, ⟨s, rfl⟩, ?_⟩
          rw [hrun]
          rfl

/-- C4 witness: the guards evaluated at the concrete selected path
`a.mp3` with the credential variable unset. -/
theorem c4_witness :
    HomePanel.transcribe (some (("a.mp3").toList)) none =
        HomePanel.TranscribeOutcome.noCredential ∧
      HomePanel.jobsStarted (HomePanel.transcribe (some (("a.mp3").toList)) none) = 0 :=
  (c4_transcribe_guards (("a.mp3").toList) (by decide)).2.1

/-- C5 counterexample: saving the empty credential stores the empty
string, but the next `transcribe` with the selected file `a.mp3` does not
treat it as present — it yields the local no-credential error and starts
no job, instead of proceeding to the remote upload. -/
theorem c5_counterexample :
    SettingsPanel.save_api_key [] = (some [], some []) ∧
      HomePanel.transcribe (some (("a.mp3").toList)) (SettingsPanel.save_api_key []).1 =
        HomePanel.TranscribeOutcome.noCredential ∧
      HomePanel.transcribe (some (("a.mp3").toList)) (SettingsPanel.save_api_key []).1 ≠
        HomePanel.TranscribeOutcome.jobStarted ∧
      HomePanel.jobsStarted
          (HomePanel.transcribe (some (("a.mp3").toList)) (SettingsPanel.save_api_key []).1) = 0 := by
  refine ⟨rfl, rfl, ?_, rfl⟩
  decide

/-- C5 amended: an empty-string credential can be saved (the store then
holds the empty string, a value distinguishable from the absent state),
but a subsequent `transcribe` with a selected file treats it exactly like
an absent credential: it yields the local no-credential error and starts
no job, so the failure never reaches the remote API. -/
theorem c5_empty_credential (f : Str) (hf : f ≠ []) :
    SettingsPanel.save_api_key [] = (some [], some []) ∧
      (some ([] : Str) ≠ (none : Option Str)) ∧
      HomePanel.transcribe (some f) (some []) = HomePanel.TranscribeOutcome.noCredential ∧
      HomePanel.jobsStarted (HomePanel.transcribe (some f) (some [])) = 0 ∧
      HomePanel.transcribe (some f) (some []) = HomePanel.transcribe (some f) none := by
  have hTruthy : pyTruthyStr (some f) = true := by
    cases f with
    | nil => exact absurd rfl hf
    | cons c cs => simp [pyTruthyStr]
  refine ⟨rfl, by simp, ?_, ?_, ?_⟩ <;>
    simp [HomePanel.transcribe, hf, pyTruthyStr, HomePanel.jobsStarted]

/-- C5 witness: the amended empty-credential behaviour at the concrete
selected path `a.mp3`. -/
theorem c5_witness :
    HomePanel.transcribe (some (("a.mp3").toList)) (some []) =
      HomePanel.TranscribeOutcome.noCredential :=
  (c5_empty_credential (("a.mp3").toList) (by decide)).2.2.1

/-- C6: evaluation of the stem derivation at the failing input — the
title `a/b` contains the path-invalid character `/`, yet
`is_valid_filename` accepts it, so the stem is `a/b` itself and not the
claimed `transcript_YYYY_MM_DD_HH_MM_SS` fallback; the write then
targets `a/b.txt`. -/
theorem c6_code_divergence :
    is_valid_filename (("a/b").toList) = true ∧
      transcript_stem (("a/b").toList) (DateTime.mk 2024 1 2 3 4 5) = ("a/b").toList ∧
      transcript_stem (("a/b").toList) (DateTime.mk 2024 1 2 3 4 5) ≠
        ("transcript_").toList ++ strftime_Y_m_d_H_M_S (DateTime.mk 2024 1 2 3 4 5) ∧
      HomePanel.save_transcript (("a/b").toList) (DateTime.mk 2024 1 2 3 4 5) [] (("x").toList) =
        [UIAction.writeFile (("a/b.txt").toList) (("x").toList),
         UIAction.setForegroundColour (30, 117, 22),
         UIAction.setLabel (HomePanel.saved_message [] (("a/b").toList))] := by
  refine ⟨rfl, rfl, by decide, rfl⟩

/-- C10: `is_valid_filename` returns `True` on every string, because the
guarded `os.path.basename` call is total string manipulation and never
raises `OSError`; consequently the timestamp fallback of
`save_transcript` fires exactly on the empty title, and every non-empty
title is used verbatim as the stem. -/
theorem c10_is_valid_filename_total (s title : Str) (now : DateTime) (h : title ≠ []) :
    os_path_basename_try s = Except.ok (os_path_basename s) ∧
      is_valid_filename s = true ∧
      transcript_stem title now = title ∧
      transcript_stem [] now = ("transcript_").toList ++ strftime_Y_m_d_H_M_S now := by
  have hvalid : ∀ t : Str, is_valid_filename t = true := fun t => rfl
  refine ⟨rfl, rfl, ?_, ?_⟩
  · rw [transcript_stem]
    simp [h, hvalid]
  · rw [transcript_stem]
    simp

/-- C10 witness: the totality statement at the concrete strings `a/b`
(a title with a path-invalid character) and `My Report`. -/
theorem c10_witness :
    is_valid_filename (("a/b").toList) = true ∧
      transcript_stem (("My Report").toList) (DateTime.mk 2024 1 2 3 4 5) =
        ("My Report").toList :=
  ⟨(c10_is_valid_filename_total (("a/b").toList) (("My Report").toList)
      (DateTime.mk 2024 1 2 3 4 5) (by decide)).2.1,
   (c10_is_valid_filename_total (("a/b").toList) (("My Report").toList)
      (DateTime.mk 2024 1 2 3 4 5) (by decide)).2.2.1⟩

/-- C7 counterexample: for the remote failure `rate limited` (title `t`,
a concrete clock and cwd), the label the UI ends up showing is the green
saved-placeholder confirmation, not the red wrapped failure message: the
placeholder save runs after `notify_error` and overwrites both the colour
and the text. -/
theorem c7_counterexample :
    (finalLabel (LabelState.mk (0, 0, 0) [])
        (HomePanel.send_audio (Except.error (("rate limited").toList)) (("t").toList)
          (DateTime.mk 2024 1 2 3 4 5) (("C:").toList))).colour = (30, 117, 22) ∧
      (finalLabel (LabelState.mk (0, 0, 0) [])
        (HomePanel.send_audio (Except.error (("rate limited").toList)) (("t").toList)
          (DateTime.mk 2024 1 2 3 4 5) (("C:").toList))).text =
        HomePanel.saved_message (("C:").toList) (("t").toList) ∧
      finalLabel (LabelState.mk (0, 0, 0) [])
        (HomePanel.send_audio (Except.error (("rate limited").toList)) (("t").toList)
          (DateTime.mk 2024 1 2 3 4 5) (("C:").toList)) ≠
        LabelState.mk (255, 0, 0)
          (("OPENAI error: ").toList ++ add_newlines (("rate limited").toList) 50) := by
  refine ⟨rfl, rfl, by decide⟩

/-- C7 amended: on a remote failure with description `d`, the handler
does paint the label red with the word-wrapped `OPENAI error: ` message
and does write the placeholder file `test`, but the subsequent placeholder
save repaints the label green with the saved-path confirmation, so the
green message — not the red failure — is the label state the UI ends up
with. -/
theorem c7_failure_handling (d title : Str) (now : DateTime) (cwd : Str) (l0 : LabelState) :
    HomePanel.send_audio (Except.error d) title now cwd =
      [UIAction.setForegroundColour (255, 0, 0),
       UIAction.setLabel (("OPENAI error: ").toList ++ add_newlines d 50),
       UIAction.writeFile (transcript_stem title now ++ (".txt").toList) (("test").toList),
       UIAction.setForegroundColour (30, 117, 22),
       UIAction.setLabel (HomePanel.saved_message cwd (transcript_stem title now))] ∧
      filesWritten (HomePanel.send_audio (Except.error d) title now cwd) =
        [(transcript_stem title now ++ (".txt").toList, ("test").toList)] ∧
      finalLabel l0 (HomePanel.send_audio (Except.error d) title now cwd) =
        LabelState.mk (30, 117, 22) (HomePanel.saved_message cwd (transcript_stem title now)) := by
  refine ⟨rfl, rfl, rfl⟩

/-- C9 counterexample: on the failed `rate limited` job, the worker
thread's own action list (the thread target is `send_audio` itself)
contains direct label mutations — the result is not handed to the UI
context through any channel. -/
theorem c9_counterexample :
    (worker_thread_actions (Except.error (("rate limited").toList)) (("t").toList)
        (DateTime.mk 2024 1 2 3 4 5) (("C:").toList)).any mutatesUI = true := by
  decide

/-- C9 amended: the worker thread directly mutates view state on every
job execution: whatever the remote outcome, the actions `send_audio`
performs on the worker thread include label mutations
(`SetForegroundColour` / `SetLabel`) and exactly one file write; no
thread-safe hand-off to the UI context exists in the program. -/
theorem c9_worker_mutates_ui (result : Except Str Str) (title : Str) (now : DateTime)
    (cwd : Str) :
    (worker_thread_actions result title now cwd).any mutatesUI = true ∧
      (filesWritten (worker_thread_actions result title now cwd)).length = 1 := by
  cases result with
  | error e =>
    constructor <;>
      simp [worker_thread_actions, HomePanel.send_audio, HomePanel.notify_error,
        HomePanel.save_transcript, filesWritten, mutatesUI]
  | ok text =>
    constructor <;>
      simp [worker_thread_actions, HomePanel.send_audio, HomePanel.save_transcript,
        filesWritten, mutatesUI]

/-! Helper lemmas about the word splitter `pySplit`. -/

/-- Every word produced by the splitter is non-empty and free of
whitespace characters. -/
theorem pySplitAux_good : ∀ (s cur : Str), (∀ c ∈ cur, c.isWhitespace = false) →
    ∀ w ∈ pySplitAux s cur, w ≠ [] ∧ ∀ c ∈ w, c.isWhitespace = false := by
  intro s
  induction s with
  | nil =>
    intro cur hcur w hw
    by_cases h : cur = []
    · simp [pySplitAux, h] at hw
    · simp [pySplitAux, h] at hw
      subst hw
      exact ⟨h, hcur⟩
  | cons c cs ih =>
    intro cur hcur w hw
    by_cases hc : c.isWhitespace = true
    · simp only [pySplitAux, hc, if_true] at hw
      rcases List.mem_append.mp hw with h1 | h2
      · by_cases h0 : cur = []
        · simp [h0] at h1
        · simp [h0] at h1
          subst h1
          exact ⟨h0, hcur⟩
      · exact ih [] (by simp) w h2
    · rw [Bool.not_eq_true] at hc
      simp only [pySplitAux, hc, Bool.false_eq_true, if_false] at hw
      refine ih (cur ++ [c]) ?_ w hw
      intro d hd
      rcases List.mem_append.mp hd with h1 | h2
      · exact hcur d h1
      · simp at h2
        subst h2
        exact hc

/-- Feeding a whitespace-free word into the splitter just extends the
current accumulator. -/
theorem pySplitAux_append_word : ∀ (w t cur : Str), (∀ c ∈ w, c.isWhitespace = false) →
    pySplitAux (w ++ t) cur = pySplitAux t (cur ++ w) := by
  intro w
  induction w with
  | nil => intro t cur _; simp
  | cons c w' ih =>
    intro t cur h
    have hc : c.isWhitespace = false := h c (by simp)
    show pySplitAux (c :: (w' ++ t)) cur = _
    rw [pySplitAux]
    simp only [hc, Bool.false_eq_true, if_false]
    rw [ih t (cur ++ [c]) (fun d hd => h d (by simp [hd]))]
    simp

/-- A leading whitespace character is discarded by the splitter. -/
theorem pySplit_ws_cons (d : Char) (t : Str) (hd : d.isWhitespace = true) :
    pySplit (d :: t) = pySplit t := by
  unfold pySplit
  rw [pySplitAux]
  simp [hd]

/-- Splitting a whitespace-free non-empty word followed by a tail that is
empty or starts with whitespace yields that word and the split tail. -/
theorem pySplit_word_append (w t : Str) (hw : w ≠ [])
    (hgood : ∀ c ∈ w, c.isWhitespace = false) (ht : wsLead t = true) :
    pySplit (w ++ t) = w :: pySplit t := by
  unfold pySplit
  rw [pySplitAux_append_word w t [] hgood]
  cases t with
  | nil => simp [pySplitAux, hw]
  | cons d t' =>
    have hd : d.isWhitespace = true := ht
    rw [pySplitAux]
    simp only [List.nil_append, hd, if_true, hw, if_false]
    rw [pySplitAux]
    simp [hd, hw]

/-! Helper lemmas about space-joined blocks of words and line splitting. -/

/-- A space-joined block of non-empty words is empty only for the empty
block. -/
theorem sj_ne_nil (B : List Str) (hB : B ≠ []) (hx : ∀ x ∈ B, x ≠ []) : sj B ≠ [] := by
  cases B with
  | nil => exact absurd rfl hB
  | cons x B' =>
    cases B' with
    | nil =>
      show joinWith ' ' [x] ≠ []
      simpa [joinWith] using hx x (by simp)
    | cons y B'' =>
      show x ++ ' ' :: joinWith ' ' (y :: B'') ≠ []
      intro h
      rcases List.append_eq_nil.mp h with ⟨_, h2⟩
      exact List.cons_ne_nil _ _ h2

/-- Appending one word to a non-empty block extends the space-joined line
by a space and the word, exactly as `current_line += " " + word` does. -/
theorem sj_append_word : ∀ (B : List Str) (w : Str), B ≠ [] →
    sj (B ++ [w]) = sj B ++ ' ' :: w := by
  intro B
  induction B with
  | nil => intro w h; exact absurd rfl h
  | cons x B' ih =>
    intro w _
    cases B' with
    | nil => rfl
    | cons y B'' =>
      have h1 : sj ((x :: y :: B'') ++ [w]) = x ++ ' ' :: sj ((y :: B'') ++ [w]) := rfl
      have h2 : sj (x :: y :: B'') = x ++ ' ' :: sj (y :: B'') := rfl
      rw [h1, h2, ih w (by simp)]
      simp

/-- Every character of a space-joined block is a space or a character of
one of its words. -/
theorem mem_sj : ∀ (B : List Str) (c : Char), c ∈ sj B → c = ' ' ∨ ∃ w ∈ B, c ∈ w := by
  intro B
  induction B with
  | nil => intro c hc; simp [sj, joinWith] at hc
  | cons x B' ih =>
    intro c hc
    cases B' with
    | nil =>
      right
      exact ⟨x, by simp, by simpa [sj, joinWith] using hc⟩
    | cons y B'' =>
      have h1 : sj (x :: y :: B'') = x ++ ' ' :: sj (y :: B'') := rfl
      rw [h1] at hc
      rcases List.mem_append.mp hc with h2 | h3
      · exact Or.inr ⟨x, by simp, h2⟩
      · rcases List.mem_cons.mp h3 with h4 | h5
        · exact Or.inl h4
        · rcases ih c h5 with h6 | ⟨w, hw1, hw2⟩
          · exact Or.inl h6
          · exact Or.inr ⟨w, by simp [hw1], hw2⟩

/-- Splitting a space-joined block of good words followed by a tail that
is empty or starts with whitespace recovers the block and the split tail. -/
theorem pySplit_block_append : ∀ (B : List Str) (t : Str),
    (∀ w ∈ B, w ≠ [] ∧ ∀ c ∈ w, c.isWhitespace = false) → wsLead t = true →
    pySplit (sj B ++ t) = B ++ pySplit t := by
  intro B
  induction B with
  | nil => intro t _ _; simp [sj, joinWith]
  | cons w B' ih =>
    intro t h ht
    cases B' with
    | nil =>
      have hw := h w (by simp)
      have h1 : sj [w] = w := rfl
      rw [h1]
      rw [pySplit_word_append w t hw.1 hw.2 ht]
      rfl
    | cons w2 B'' =>
      have hw := h w (by simp)
      have h1 : sj (w :: w2 :: B'') = w ++ ' ' :: sj (w2 :: B'') := rfl
      rw [h1]
      have h2 : (w ++ ' ' :: sj (w2 :: B'')) ++ t = w ++ ' ' :: (sj (w2 :: B'') ++ t) := by
        simp
      rw [h2]
      rw [pySplit_word_append w (' ' :: (sj (w2 :: B'') ++ t)) hw.1 hw.2 (by rfl)]
      rw [pySplit_ws_cons ' ' (sj (w2 :: B'') ++ t) (by decide)]
      rw [ih t (fun x hx => h x (by simp [hx])) ht]
      rfl

/-- Splitting the newline-joined rendering of space-joined blocks of good
words recovers exactly the words, in order. -/
theorem pySplit_joinWith_blocks : ∀ (Bs : List (List Str)),
    (∀ B ∈ Bs, ∀ w ∈ B, w ≠ [] ∧ ∀ c ∈ w, c.isWhitespace = false) →
    pySplit (joinWith '\n' (Bs.map sj)) = Bs.flatten := by
  intro Bs
  induction Bs with
  | nil => intro _; simp [joinWith, pySplit, pySplitAux]
  | cons B Bs' ih =>
    intro h
    cases Bs' with
    | nil =>
      have h1 : joinWith '\n' ([B].map sj) = sj B := rfl
      rw [h1]
      have h2 : sj B = sj B ++ [] := by simp
      rw [h2, pySplit_block_append B [] (h B (by simp)) (by rfl)]
      simp [pySplit, pySplitAux]
    | cons B2 Bs'' =>
      have h1 : joinWith '\n' ((B :: B2 :: Bs'').map sj) =
          sj B ++ '\n' :: joinWith '\n' ((B2 :: Bs'').map sj) := rfl
      rw [h1]
      rw [pySplit_block_append B ('\n' :: joinWith '\n' ((B2 :: Bs'').map sj))
        (h B (by simp)) (by rfl)]
      rw [pySplit_ws_cons '\n' (joinWith '\n' ((B2 :: Bs'').map sj)) (by decide)]
      rw [ih (fun B0 hB0 => h B0 (by simp [hB0]))]
      simp

/-- Splitting a separator-free string on that separator yields the string
as the single piece. -/
theorem splitOnChar_no_sep (sep : Char) : ∀ (l : Str), (∀ c ∈ l, c ≠ sep) →
    splitOnChar sep l = [l] := by
  intro l
  induction l with
  | nil => intro _; rfl
  | cons c l' ih =>
    intro h
    have hc : ¬(c = sep) := h c (by simp)
    rw [splitOnChar]
    simp only [hc, if_false]
    rw [ih (fun d hd => h d (by simp [hd]))]

/-- Splitting at an explicit separator occurrence after a separator-free
prefix peels off that prefix. -/
theorem splitOnChar_append_sep (sep : Char) : ∀ (a b : Str), (∀ c ∈ a, c ≠ sep) →
    splitOnChar sep (a ++ sep :: b) = a :: splitOnChar sep b := by
  intro a
  induction a with
  | nil =>
    intro b _
    show splitOnChar sep (sep :: b) = _
    rw [splitOnChar]
    simp
  | cons c a' ih =>
    intro b h
    have hc : ¬(c = sep) := h c (by simp)
    show splitOnChar sep (c :: (a' ++ sep :: b)) = _
    rw [splitOnChar]
    simp only [hc, if_false]
    rw [ih b (fun d hd => h d (by simp [hd]))]

/-- Splitting the separator-joined rendering of separator-free pieces
recovers the pieces. -/
theorem splitOnChar_joinWith (sep : Char) : ∀ (ls : List Str), ls ≠ [] →
    (∀ l ∈ ls, ∀ c ∈ l, c ≠ sep) → splitOnChar sep (joinWith sep ls) = ls := by
  intro ls
  induction ls with
  | nil => intro h _; exact absurd rfl h
  | cons l ls' ih =>
    intro _ h
    cases ls' with
    | nil => exact splitOnChar_no_sep sep l (h l (by simp))
    | cons l2 ls'' =>
      have h1 : joinWith sep (l :: l2 :: ls'') = l ++ sep :: joinWith sep (l2 :: ls'') := rfl
      rw [h1]
      rw [splitOnChar_append_sep sep l (joinWith sep (l2 :: ls'')) (h l (by simp))]
      rw [ih (by simp) (fun l0 hl0 => h l0 (by simp [hl0]))]

/-! Invariants of the word-wrap fold of `add_newlines`. -/

/-- Shape invariant of the wrap loop: starting from lines that are
space-joined blocks `Bs` and a current line that is the space-joined
block `B`, the loop keeps this shape, and the words of the final blocks
are exactly the already-placed words followed by the remaining words. -/
theorem wrap_fold_blocks (L : Nat) : ∀ (ws : List Str) (Bs : List (List Str)) (B : List Str),
    (∀ x ∈ B, x ≠ []) → (∀ x ∈ ws, x ≠ []) →
    ∃ (Bs' : List (List Str)) (B' : List Str),
      List.foldl (wrapStep L) (Bs.map sj, sj B) ws = (Bs'.map sj, sj B') ∧
        Bs'.flatten ++ B' = Bs.flatten ++ (B ++ ws) ∧ (∀ x ∈ B', x ≠ []) := by
  intro ws
  induction ws with
  | nil =>
    intro Bs B hB _
    exact ⟨Bs, B, rfl, by simp, hB⟩
  | cons w ws' ih =>
    intro Bs B hB hws
    have hw : w ≠ [] := hws w (by simp)
    rw [List.foldl_cons]
    by_cases hcond : (sj B).length + w.length ≤ L
    · by_cases hBnil : B = []
      · subst hBnil
        have hcond' : w.length ≤ L := by simpa [sj, joinWith] using hcond
        have hstep : wrapStep L (Bs.map sj, sj []) w = (Bs.map sj, sj [w]) := by
          simp [wrapStep, sj, joinWith, hcond']
        rw [hstep]
        obtain ⟨Bs', B', h1, h2, h3⟩ := ih Bs [w] (by simp [hw]) (fun x hx => hws x (by simp [hx]))
        refine ⟨Bs', B', h1, ?_, h3⟩
        rw [h2]
        simp
      · have hsjB : sj B ≠ [] := sj_ne_nil B hBnil hB
        have hstep : wrapStep L (Bs.map sj, sj B) w = (Bs.map sj, sj (B ++ [w])) := by
          simp [wrapStep, hcond, hsjB, sj_append_word B w hBnil]
        rw [hstep]
        obtain ⟨Bs', B', h1, h2, h3⟩ := ih Bs (B ++ [w])
          (by
            intro x hx
            rcases List.mem_append.mp hx with h4 | h5
            · exact hB x h4
            · simp at h5
              subst h5
              exact hw)
          (fun x hx => hws x (by simp [hx]))
        refine ⟨Bs', B', h1, ?_, h3⟩
        rw [h2]
        simp
    · have hstep : wrapStep L (Bs.map sj, sj B) w = ((Bs ++ [B]).map sj, sj [w]) := by
        have hsj : sj [w] = w := rfl
        simp [wrapStep, hcond, hsj]
      rw [hstep]
      obtain ⟨Bs', B', h1, h2, h3⟩ := ih (Bs ++ [B]) [w] (by simp [hw])
        (fun x hx => hws x (by simp [hx]))
      refine ⟨Bs', B', h1, ?_, h3⟩
      rw [h2]
      simp

/-- Bound invariant of the wrap loop: every completed line, and the
current line when non-empty, is either at most `L + 1` characters long
(the `+ 1` is the joining space the guard of `add_newlines` fails to
count) or is one of the input words verbatim. -/
theorem wrap_fold_bound (L : Nat) (W : List Str) :
    ∀ (ws : List Str) (lines : List Str) (cur : Str),
    (∀ l ∈ lines, l.length ≤ L + 1 ∨ l ∈ W) →
    (cur = [] ∨ cur.length ≤ L + 1 ∨ cur ∈ W) →
    (∀ w ∈ ws, w ∈ W) →
    (∀ l ∈ (List.foldl (wrapStep L) (lines, cur) ws).1, l.length ≤ L + 1 ∨ l ∈ W) ∧
      ((List.foldl (wrapStep L) (lines, cur) ws).2 = [] ∨
        (List.foldl (wrapStep L) (lines, cur) ws).2.length ≤ L + 1 ∨
        (List.foldl (wrapStep L) (lines, cur) ws).2 ∈ W) := by
  intro ws
  induction ws with
  | nil =>
    intro lines cur hlines hcur _
    exact ⟨hlines, hcur⟩
  | cons w ws' ih =>
    intro lines cur hlines hcur hws
    have hwW : w ∈ W := hws w (by simp)
    rw [List.foldl_cons]
    by_cases hcond : cur.length + w.length ≤ L
    · by_cases hnil : cur = []
      · have hcond2 : w.length ≤ L := by
          rw [hnil] at hcond
          simpa using hcond
        have hstep : wrapStep L (lines, cur) w = (lines, w) := by
          simp [wrapStep, hnil, hcond2]
        rw [hstep]
        exact ih lines w hlines (Or.inr (Or.inr hwW)) (fun x hx => hws x (by simp [hx]))
      · have hstep : wrapStep L (lines, cur) w = (lines, cur ++ ' ' :: w) := by
          simp [wrapStep, hcond, hnil]
        rw [hstep]
        refine ih lines (cur ++ ' ' :: w) hlines (Or.inr (Or.inl ?_))
          (fun x hx => hws x (by simp [hx]))
        have : (cur ++ ' ' :: w).length = cur.length + w.length + 1 := by
          simp [List.length_append]
          omega
        omega
    · have hstep : wrapStep L (lines, cur) w = (lines ++ [cur], w) := by
        simp [wrapStep, hcond]
      rw [hstep]
      refine ih (lines ++ [cur]) w ?_ (Or.inr (Or.inr hwW)) (fun x hx => hws x (by simp [hx]))
      intro l hl
      rcases List.mem_append.mp hl with h1 | h2
      · exact hlines l h1
      · simp at h2
        subst h2
        rcases hcur with h3 | h4
        · subst h3
          simp
        · exact h4

/-- C3 counterexample: for the input made of a 25-character word and
another 25-character word, `add_newlines _ 50` emits the single line
`aaa...a bbb...b` of 51 characters — longer than 50 yet not a single
over-long word — because the guard `len(current_line) + len(word) <= 50`
does not count the joining space.  The claim as stated is false here. -/
theorem c3_counterexample :
    ¬ ((∀ l ∈ splitOnChar '\n'
          (add_newlines (List.replicate 25 'a' ++ ' ' :: List.replicate 25 'b') 50),
          l.length ≤ 50 ∨
            (l ∈ pySplit (List.replicate 25 'a' ++ ' ' :: List.replicate 25 'b') ∧
              50 < l.length)) ∧
        pySplit (add_newlines (List.replicate 25 'a' ++ ' ' :: List.replicate 25 'b') 50) =
          pySplit (List.replicate 25 'a' ++ ' ' :: List.replicate 25 'b')) := by
  decide

/-- C3 amended: for every input string, every line of `add_newlines s 50`
is at most 51 characters long (50 plus the joining space the guard fails
to count) or is a single input word that is itself longer than 51
characters; and splitting the output into words again reproduces the
words of `s` in their original order. -/
theorem c3_wrap_amended (s : Str) :
    (∀ l ∈ splitOnChar '\n' (add_newlines s 50),
        l.length ≤ 51 ∨ (l ∈ pySplit s ∧ 51 < l.length)) ∧
      pySplit (add_newlines s 50) = pySplit s := by
  have hgood : ∀ w ∈ pySplit s, w ≠ [] ∧ ∀ c ∈ w, c.isWhitespace = false :=
    pySplitAux_good s [] (by simp)
  obtain ⟨Bs, B, hfold, hflat, hBne⟩ :=
    wrap_fold_blocks 50 (pySplit s) [] [] (by simp) (fun x hx => (hgood x hx).1)
  have hfold' : List.foldl (wrapStep 50) (([] : List Str), ([] : Str)) (pySplit s) =
      (List.map sj Bs, sj B) := hfold
  have hflat' : Bs.flatten ++ B = pySplit s := by simpa using hflat
  have hbounds := wrap_fold_bound 50 (pySplit s) (pySplit s) [] [] (by simp)
    (Or.inl rfl) (fun w h => h)
  rw [hfold'] at hbounds
  have hb1 : ∀ l ∈ List.map sj Bs, l.length ≤ 51 ∨ l ∈ pySplit s := hbounds.1
  have hb2 : sj B = [] ∨ (sj B).length ≤ 51 ∨ sj B ∈ pySplit s := hbounds.2
  obtain ⟨Cs, hCl, hCf, hCb⟩ :
      ∃ Cs : List (List Str),
        (if sj B = [] then List.map sj Bs else List.map sj Bs ++ [sj B]) = List.map sj Cs ∧
          Cs.flatten = pySplit s ∧
          ∀ l ∈ List.map sj Cs, l.length ≤ 51 ∨ l ∈ pySplit s := by
    by_cases hB0 : B = []
    · subst hB0
      exact ⟨Bs, by simp [sj, joinWith], by simpa using hflat', hb1⟩
    · have hsjB : sj B ≠ [] := sj_ne_nil B hB0 hBne
      refine ⟨Bs ++ [B], by simp [hsjB], by simpa using hflat', ?_⟩
      intro l hl
      rw [List.map_append] at hl
      rcases List.mem_append.mp hl with h1 | h2
      · exact hb1 l h1
      · simp at h2
        subst h2
        rcases hb2 with h3 | h4
        · exact absurd h3 hsjB
        · exact h4
  have hCsgood : ∀ C ∈ Cs, ∀ w ∈ C, w ≠ [] ∧ ∀ c ∈ w, c.isWhitespace = false := by
    intro C hC w hw
    have hmem : w ∈ Cs.flatten := List.mem_flatten.mpr ⟨C, hC, hw⟩
    rw [hCf] at hmem
    exact hgood w hmem
  have hadd : add_newlines s 50 = joinWith '\n' (List.map sj Cs) := by
    simp only [add_newlines]
    rw [hfold']
    rw [← hCl]
  refine ⟨?_, by rw [hadd, pySplit_joinWith_blocks Cs hCsgood, hCf]⟩
  by_cases hCs0 : Cs = []
  · subst hCs0
    intro l hl
    rw [hadd] at hl
    simp [joinWith, splitOnChar] at hl
    subst hl
    simp
  · have hmapne : List.map sj Cs ≠ [] := by simp [hCs0]
    have hnosep : ∀ l ∈ List.map sj Cs, ∀ c ∈ l, c ≠ '\n' := by
      intro l hl c hc
      rcases List.mem_map.mp hl with ⟨C, hC, rfl⟩
      rcases mem_sj C c hc with h1 | ⟨w, hw1, hw2⟩
      · rw [h1]
        decide
      · have hws := (hCsgood C hC w hw1).2 c hw2
        intro heq
        rw [heq] at hws
        simp at hws
    have hsplit : splitOnChar '\n' (add_newlines s 50) = List.map sj Cs := by
      rw [hadd]
      exact splitOnChar_joinWith '\n' (List.map sj Cs) hmapne hnosep
    intro l hl
    rw [hsplit] at hl
    have hOK := hCb l hl
    by_cases hlen : l.length ≤ 51
    · exact Or.inl hlen
    · refine Or.inr ⟨?_, by omega⟩
      rcases hOK with h1 | h2
      · exact absurd h1 hlen
      · exact h2

/-- C3 witness: the amended wrap bound applied to the concrete input
`a b`, whose single output line it bounds. -/
theorem c3_witness :
    ('a' :: ' ' :: ['b']).length ≤ 51 ∨
      ('a' :: ' ' :: ['b']) ∈ pySplit ('a' :: ' ' :: ['b']) ∧
        51 < ('a' :: ' ' :: ['b']).length :=
  (c3_wrap_amended ('a' :: ' ' :: ['b'])).1 ('a' :: ' ' :: ['b']) (by decide)
